import Mathlib

/-!
# aws-organization-ec2-list: a shallow embedding of `main.go`

The Go program enumerates the accounts of an AWS Organization, describes the EC2
instances of every account through an assumed role, and writes one CSV row per
instance.  This file embeds `main.go` in Lean and proves (or refutes) properties of
the embedded functions.

Modelling conventions.

* A Go `map[string]T` is an `AList` (association list without duplicate keys);
  `len(m)` is the number of entries, `m[k]` on a missing key of a
  `map[string][]string` is the nil slice `[]`, and `m[k] = v` is `AList.insert`.
  A Go map is a reference: a callee that stores into it changes the caller's map,
  which the embedding renders by returning the updated map.
* The AWS SDK is the environment.  Its answers are taken from a `World`; every call
  that reaches it is recorded as an `Event` in a trace.
* `log.Fatal` ends the process; a run that ended this way has outcome
  `Outcome.fatal`.
* SDK fields that `main.go` dereferences without a nil test (`*account.Name`,
  `*instance.InstanceId`, ...) are plain strings; fields it tests against nil
  (`Platform`, `PrivateIpAddress`, `NextToken`) are `Option`s.
* `log.Fatal(message, err)` prints `message` followed by `err.Error()`; the fatal
  outcome carries this text.
* Console output (`fmt.Println`) is not modelled, nor is a panic of `session.Must` or
  of a nil dereference; `config.InitVariables` is the `config` field of the `World`.
-/

namespace Ec2List

/-! ## Data model -/

/-- Go type `config.Config` of `config/config.go`. -/
structure Config where
  Region : String
  OrganizationRole : String
  MasterAccountID : String
  deriving DecidableEq, Repr

/-- SDK type `ec2.Tag`; `main.go` reads `*tag.Key` and `*tag.Value`. -/
structure Tag where
  Key : String
  Value : String
  deriving DecidableEq, Repr

/-- SDK type `ec2.InstanceState`; `main.go` reads `*instance.State.Name`. -/
structure InstanceState where
  Name : String
  deriving DecidableEq, Repr

/-- Go type `time.Time`, reduced to the text that its method `String()` renders. -/
structure Time where
  rendered : String
  deriving DecidableEq, Repr

/-- Go method `time.Time.String`. -/
def Time.String (t : Time) : String := t.rendered

/-- SDK type `ec2.Instance`, restricted to the fields read by `getAccountEc2`. -/
structure Instance where
  InstanceId : String
  Tags : List Tag
  InstanceType : String
  ImageId : String
  Platform : Option String
  PrivateIpAddress : Option String
  State : InstanceState
  LaunchTime : Time
  deriving DecidableEq, Repr

/-- SDK type `ec2.Reservation`. -/
structure Reservation where
  Instances : List Instance
  deriving DecidableEq, Repr

/-- SDK type `ec2.DescribeInstancesOutput`. -/
structure DescribeInstancesOutput where
  Reservations : List Reservation
  deriving DecidableEq, Repr

/-- SDK type `organizations.Account`; `main.go` reads `*account.Name` and `*account.Id`. -/
structure Account where
  Name : String
  Id : String
  deriving DecidableEq, Repr

/-- SDK type `organizations.ListAccountsOutput`. -/
structure ListAccountsOutput where
  Accounts : List Account
  NextToken : Option String
  deriving DecidableEq, Repr

/-- SDK type `organizations.ListAccountsInput`. -/
structure ListAccountsInput where
  NextToken : Option String
  deriving DecidableEq, Repr

/-- Go type `map[string][]string`: the record set, keyed by instance ID. -/
abbrev RecordSet := AList (fun _ : String => List String)

/-- Go type `map[string]string`: account name to account ID. -/
abbrev AccountMap := AList (fun _ : String => String)

/-- Go expression `result[key]` on a `map[string][]string`: the nil slice when absent. -/
def RecordSet.get (result : RecordSet) (key : String) : List String :=
  (result.lookup key).getD []

/-- Go expression `len(result)`. -/
def RecordSet.len (result : RecordSet) : Nat := result.entries.length

/-- Go statement `result[key] = append(result[key], field)`. -/
def appendField (result : RecordSet) (key field : String) : RecordSet :=
  result.insert key (result.get key ++ [field])

/-! ## `getAccountEc2`, lines 81-113: the loop over instances -/

/-- Lines 88-93: the loop over `instance.Tags`, appending the value of every tag whose
key is `"Name"`. -/
def appendNameTags (result : RecordSet) (key : String) (tags : List Tag) : RecordSet :=
  tags.foldl (fun r tag => if tag.Key = "Name" then appendField r key tag.Value else r) result

/-- Lines 83-112: the body of the loop over `reservation.Instances`. -/
def processInstance (accountName accountID : String) (result : RecordSet)
    (inst : Instance) : RecordSet :=
  let key := inst.InstanceId
  let result := appendField result key accountName
  let result := appendField result key accountID
  let result := appendNameTags result key inst.Tags
  let result := if result.len = 2 then appendField result key "N/A" else result
  let result := appendField result key inst.InstanceType
  let result := appendField result key inst.InstanceId
  let result := appendField result key inst.ImageId
  let result :=
    match inst.Platform with
    | some p => appendField result key p
    | none => appendField result key "linux"
  let result :=
    match inst.PrivateIpAddress with
    | some ip => appendField result key ip
    | none => appendField result key "N/A"
  let result := appendField result key inst.State.Name
  appendField result key inst.LaunchTime.String

/-- Lines 78-115: the loops over `instances.Reservations` and `reservation.Instances`.
The guard `len(instances.Reservations) != 0` only skips a loop that would not run. -/
def processReservations (accountName accountID : String) (result : RecordSet)
    (reservations : List Reservation) : RecordSet :=
  if reservations.length ≠ 0 then
    reservations.foldl
      (fun r reservation => reservation.Instances.foldl (processInstance accountName accountID) r)
      result
  else result

/-! ## The environment: sessions, credentials, clients, traces -/

/-- SDK type `session.Session`, opaque for this program. -/
structure Session where
  deriving DecidableEq, Repr

/-- Credentials returned by `stscreds.NewCredentials(sess, arn)`: they assume the role
`roleARN`. -/
structure Credentials where
  roleARN : String
  deriving DecidableEq, Repr

/-- SDK type `aws.Config`, restricted to the fields set by `Clients.Config`. -/
structure AwsConfig where
  Credentials : Credentials
  Region : String
  MaxRetries : Nat
  deriving DecidableEq, Repr

/-- A service client as built by `organizations.New(sess, cfg)` or `ec2.New(sess, cfg)`:
the session and the optional (possibly nil) config handed to the constructor. -/
structure ServiceClient where
  session : Session
  config : Option AwsConfig
  deriving DecidableEq, Repr

/-- Go type `Clients` (lines 121-124); a nil map is `none`. -/
structure Clients where
  session : Option Session
  configs : Option (AList (fun _ : String => AwsConfig))
  deriving DecidableEq

/-- A call that leaves the program. -/
inductive Event where
  | newSession
  | newCredentials (arn : String)
  | listAccounts (svc : ServiceClient) (input : ListAccountsInput)
  | describeInstances (svc : ServiceClient)
  | createFile (name : String)
  | writeRow (row : List String)
  deriving DecidableEq, Repr

/-- How a run of a function ends: it returns `v`, the process exits in `log.Fatal`, or
the scripted environment has no further answer for a call. -/
inductive Outcome (α : Type) where
  | ok (v : α)
  | fatal (msg : String)
  | stuck
  deriving DecidableEq, Repr

/-- A run: the calls made, in order, and how the run ended. -/
structure Run (α : Type) where
  trace : List Event
  outcome : Outcome α

/-- Sequencing of runs: the second part runs only when the first one returned. -/
def Run.bind {α β : Type} (r : Run α) (f : α → Run β) : Run β :=
  match r.outcome with
  | .ok v => ⟨r.trace ++ (f v).trace, (f v).outcome⟩
  | .fatal msg => ⟨r.trace, .fatal msg⟩
  | .stuck => ⟨r.trace, .stuck⟩

/-- What the program meets outside itself.  A Go `error` is `none` for nil and
`some text` for an error whose `Error()` is `text`. -/
structure World where
  /-- The `Config` that `config.InitVariables()` returns. -/
  config : Config
  /-- The answers of `svc.ListAccounts`, in call order. -/
  listAccounts : List (ListAccountsOutput × Option String)
  /-- The answer of `svc.DescribeInstances` for a client. -/
  describeInstances : ServiceClient → DescribeInstancesOutput × Option String
  /-- The error of `os.Create("result.csv")`. -/
  createErr : Option String
  /-- The error of `writer.Write(row)`. -/
  writeErr : List String → Option String
  /-- The order in which `range listAccounts` visits the entries (unspecified in Go). -/
  rangeAccounts : AccountMap → List (String × String)
  /-- The order in which `range listEc2` visits the values (unspecified in Go). -/
  rangeRecords : RecordSet → List (List String)

/-- Go's `range` over a map visits every entry once, in some order. -/
def World.RangeOk (w : World) : Prop :=
  (∀ m : AccountMap, (w.rangeAccounts m).Perm (m.entries.map (fun e => (e.1, e.2)))) ∧
  (∀ m : RecordSet, (w.rangeRecords m).Perm (m.entries.map (fun e => e.2)))

/-! ## `Clients`, lines 120-186 -/

/-- Lines 127-134, `func (c Clients) Session()`.  The receiver is a copy of the caller's
struct, so the assignment `c.session = sess` does not reach the caller: the only
results are the session and the call of `session.NewSession`. -/
def Clients.Session (c : Clients) : List Event × Session :=
  match c.session with
  | some sess => ([], sess)
  | none => ([Event.newSession], ⟨⟩)

/-- Result of `Clients.Config`: the calls made, the returned `*aws.Config` (`none` for
nil), and the caller's `Clients` value after the call. -/
structure ConfigResult where
  trace : List Event
  config : Option AwsConfig
  caller : Clients
  deriving DecidableEq

/-- Lines 137-170, `func (c Clients) Config(region, accountID, role *string)`.
The receiver is a copy.  When the caller's `configs` map is nil, the map created at
line 166 is stored in the copy only and the caller's struct is unchanged; when it is
not nil, the copy shares the map and the store at line 168 is seen by the caller. -/
def Clients.Config (c : Clients) (region accountID role : Option String) : ConfigResult :=
  match accountID, region, role with
  | some accountID, some region, some role =>
    let arn := "arn:aws:iam::" ++ accountID ++ ":role/" ++ role
    let key := region ++ "::" ++ arn
    match c.configs.bind (fun m => m.lookup key) with
    | some cached => ⟨[], some cached, c⟩
    | none =>
      let creds : Credentials := ⟨arn⟩
      let config : AwsConfig := ⟨creds, region, 10⟩
      let caller : Clients :=
        match c.configs with
        | none => c
        | some m => { c with configs := some (m.insert key config) }
      ⟨c.Session.1 ++ [Event.newCredentials arn], some config, caller⟩
  | _, _, _ => ⟨[], none, c⟩

/-- Result of `Clients.Organization` and `Clients.EC2`. -/
structure ClientResult where
  trace : List Event
  client : ServiceClient
  caller : Clients
  deriving DecidableEq

/-- Body shared by lines 177 and 185: `New(c.Session(), c.Config(&region, &accountID,
&role))`.  The three pointers are addresses of parameters, hence never nil. -/
def Clients.newClient (c : Clients) (region accountID role : String) : ClientResult :=
  let s := c.Session
  let r := c.Config (some region) (some accountID) (some role)
  ⟨s.1 ++ r.trace, ⟨s.2, r.config⟩, r.caller⟩

/-- Lines 173-178, `func (c *Clients) Organization`. -/
def Clients.Organization (c : Clients) (region accountID role : String) : ClientResult :=
  c.newClient region accountID role

/-- Lines 181-186, `func (c *Clients) EC2`. -/
def Clients.EC2 (c : Clients) (region accountID role : String) : ClientResult :=
  c.newClient region accountID role

/-- Lines 189-193, `checkError(message, err)`: `log.Fatal(message, err)` when `err` is
not nil. -/
def checkError {α : Type} (message : String) (err : Option String) (trace : List Event)
    (v : α) : Run α :=
  match err with
  | some e => ⟨trace, .fatal (message ++ e)⟩
  | none => ⟨trace, .ok v⟩

/-! ## `getOrganizationAccounts`, lines 41-65 -/

/-- Lines 53-55: store every account of a page under its name. -/
def addAccounts (organizationAccounts : AccountMap) (accounts : List Account) : AccountMap :=
  accounts.foldl (fun m account => m.insert account.Name account.Id) organizationAccounts

/-- Lines 49-63: the `for` loop, run against the answers the environment still has. -/
def listAccountsLoop (svc : ServiceClient) :
    List (ListAccountsOutput × Option String) → ListAccountsInput → AccountMap → Run AccountMap
  | [], input, _ => ⟨[Event.listAccounts svc input], .stuck⟩
  | (page, err) :: rest, input, organizationAccounts =>
    let organizationAccounts := addAccounts organizationAccounts page.Accounts
    match err with
    | some e =>
      ⟨[Event.listAccounts svc input], .fatal ("Could not retrieve account list" ++ e)⟩
    | none =>
      match page.NextToken with
      | none => ⟨[Event.listAccounts svc input], .ok organizationAccounts⟩
      | some token =>
        let r := listAccountsLoop svc rest ⟨some token⟩ organizationAccounts
        ⟨Event.listAccounts svc input :: r.trace, r.outcome⟩

/-- Lines 41-65. -/
def getOrganizationAccounts (w : World) (config : Config) : Run AccountMap :=
  let c : Clients := ⟨none, none⟩
  let svc := c.Organization config.Region config.MasterAccountID config.OrganizationRole
  let r := listAccountsLoop svc.client w.listAccounts ⟨none⟩ ∅
  ⟨svc.trace ++ r.trace, r.outcome⟩

/-! ## `getAccountEc2`, lines 68-118 -/

/-- Lines 68-118. -/
def getAccountEc2 (w : World) (config : Config) (accountName accountID : String)
    (result : RecordSet) : Run RecordSet :=
  let c : Clients := ⟨none, none⟩
  let svc := c.EC2 config.Region accountID config.OrganizationRole
  let answer := w.describeInstances svc.client
  checkError "Could not retrieve the EC2s" answer.2
    (svc.trace ++ [Event.describeInstances svc.client])
    (processReservations accountName accountID result answer.1.Reservations)

/-! ## `writeToCSV`, lines 196-214, and `main`, lines 19-38 -/

/-- Line 206. -/
def headers : List String :=
  ["Account Name", "Account ID", "Instance Name", "Instance Size", "Instance ID", "Image ID",
   "Platform", "Private IP", "State", "Timestamp"]

/-- Lines 209-212: write the rows, stopping in `log.Fatal` at the first error. -/
def writeRows (w : World) : List (List String) → Run Unit
  | [] => ⟨[], .ok ()⟩
  | value :: rest =>
    (checkError "Cannot write to file" (w.writeErr value) [Event.writeRow value] ()).bind
      fun _ => writeRows w rest

/-- Lines 196-214. -/
def writeToCSV (w : World) (listEc2 : RecordSet) : Run Unit :=
  (checkError "Cannot create file" w.createErr [Event.createFile "result.csv"] ()).bind
    fun _ => (Run.mk [Event.writeRow headers] (.ok ())).bind
    fun _ => writeRows w (w.rangeRecords listEc2)

/-- Lines 31-33: the loop over the accounts, in the order `range` visits them. -/
def accountsLoop (w : World) (config : Config) :
    List (String × String) → RecordSet → Run RecordSet
  | [], listEc2 => ⟨[], .ok listEc2⟩
  | (accountName, accountID) :: rest, listEc2 =>
    (getAccountEc2 w config accountName accountID listEc2).bind
      fun listEc2 => accountsLoop w config rest listEc2

/-- Lines 19-38. -/
def main (w : World) : Run Unit :=
  let config := w.config
  (getOrganizationAccounts w config).bind fun listAccounts =>
  (accountsLoop w config (w.rangeAccounts listAccounts) ∅).bind fun listEc2 =>
  writeToCSV w listEc2

/-! ## Notions used in the statements -/

/-- The values of the tags whose key is `"Name"`, in tag order. -/
def nameTagValues (tags : List Tag) : List String :=
  (tags.filter (fun tag => tag.Key = "Name")).map (fun tag => tag.Value)

/-- The seven instance attributes of a record, in the order of the specification: type,
ID, image, platform (default `"linux"`), private IP (default `"N/A"`), state, launch time. -/
def instanceFields (inst : Instance) : List String :=
  [inst.InstanceType, inst.InstanceId, inst.ImageId, inst.Platform.getD "linux",
   inst.PrivateIpAddress.getD "N/A", inst.State.Name, inst.LaunchTime.String]

/-- All instances of a describe response, in the order the two loops visit them. -/
def allInstances (reservations : List Reservation) : List Instance :=
  reservations.flatMap (fun reservation => reservation.Instances)

/-- The EC2 client that `getAccountEc2` builds for an account (lines 70-71). -/
def ec2Client (config : Config) (accountID : String) : ServiceClient :=
  ((⟨none, none⟩ : Clients).EC2 config.Region accountID config.OrganizationRole).client

/-- The Organizations client that `getOrganizationAccounts` builds (lines 43-44). -/
def organizationClient (config : Config) : ServiceClient :=
  ((⟨none, none⟩ : Clients).Organization config.Region config.MasterAccountID
    config.OrganizationRole).client

/-- The role ARN of line 146 for an account and a role name. -/
def roleARN (accountID role : String) : String :=
  "arn:aws:iam::" ++ accountID ++ ":role/" ++ role

/-- The accounts of all pages of a listing, in listing order. -/
def allAccounts (script : List (ListAccountsOutput × Option String)) : List Account :=
  script.flatMap (fun answer => answer.1.Accounts)

/-- A listing of `N ≥ 1` answers, none with an error, in which every answer except the
last carries a continuation token and the last carries none. -/
def PagedListing (script : List (ListAccountsOutput × Option String)) : Prop :=
  script ≠ []
    ∧ (∀ answer ∈ script, answer.2 = none)
    ∧ (∀ answer ∈ script.dropLast, answer.1.NextToken ≠ none)
    ∧ script.getLast?.bind (fun answer => answer.1.NextToken) = none

/-- The inputs of the `ListAccounts` calls of a trace, in call order. -/
def listAccountsCalls (trace : List Event) : List ListAccountsInput :=
  trace.filterMap fun e =>
    match e with
    | Event.listAccounts _ input => some input
    | _ => none

/-- The clients of the `DescribeInstances` calls of a trace, in call order. -/
def describeCalls (trace : List Event) : List ServiceClient :=
  trace.filterMap fun e =>
    match e with
    | Event.describeInstances svc => some svc
    | _ => none

/-- The events of a trace that touch the output file. -/
def fileEvents (trace : List Event) : List Event :=
  trace.filter fun e =>
    match e with
    | Event.createFile _ => true
    | Event.writeRow _ => true
    | _ => false

/-- The record set after the loop of `main` has processed the accounts of `order` without
error, starting from `result`. -/
def accumulate (w : World) (config : Config) (order : List (String × String))
    (result : RecordSet) : RecordSet :=
  order.foldl
    (fun r a =>
      processReservations a.1 a.2 r (w.describeInstances (ec2Client config a.2)).1.Reservations)
    result

/-- The calls of one run of `getAccountEc2` for an account. -/
def ec2Trace (config : Config) (accountID : String) : List Event :=
  [Event.newSession, Event.newSession,
   Event.newCredentials (roleARN accountID config.OrganizationRole),
   Event.describeInstances (ec2Client config accountID)]

/-! ## Concrete inputs -/

/-- The instance of the end-to-end example: no Name tag, no platform, no private IP. -/
def exInst : Instance :=
  { InstanceId := "i-abc123", Tags := [], InstanceType := "t3.micro", ImageId := "ami-1",
    Platform := none, PrivateIpAddress := none, State := ⟨"running"⟩,
    LaunchTime := ⟨"2020-01-01 00:00:00 +0000 UTC"⟩ }

/-- An instance with one Name tag, a platform and a private IP. -/
def webInst : Instance :=
  { InstanceId := "i-web", Tags := [⟨"env", "test"⟩, ⟨"Name", "web"⟩],
    InstanceType := "m5.large", ImageId := "ami-2", Platform := some "windows",
    PrivateIpAddress := some "10.0.0.5", State := ⟨"stopped"⟩,
    LaunchTime := ⟨"2021-06-01 12:00:00 +0000 UTC"⟩ }

/-- The configuration of the examples. -/
def exConfig : Config :=
  { Region := "us-east-1", OrganizationRole := "OrgRole", MasterAccountID := "000000000000" }

/-- The world of the end-to-end example: accounts `prod` and `dev` on one page, `prod`
with the single instance `exInst`, every other account without reservations. -/
def exWorld : World :=
  { config := exConfig
    listAccounts := [(⟨[⟨"prod", "111111111111"⟩, ⟨"dev", "222222222222"⟩], none⟩, none)]
    describeInstances := fun svc =>
      if svc = ec2Client exConfig "111111111111" then (⟨[⟨[exInst]⟩]⟩, none) else (⟨[]⟩, none)
    createErr := none
    writeErr := fun _ => none
    rangeAccounts := fun m => m.entries.map (fun e => (e.1, e.2))
    rangeRecords := fun m => m.entries.map (fun e => e.2) }

/-- A world in which account `333333333333` holds `webInst`. -/
def webWorld : World :=
  { exWorld with describeInstances := fun _ => (⟨[⟨[webInst]⟩]⟩, none) }

/-- A record set with one record, of another account. -/
def otherRecords : RecordSet :=
  AList.singleton "i-other"
    ["dev", "222222222222", "db", "t2.small", "i-other", "ami-9", "linux", "10.0.0.9",
     "running", "2019-03-03 08:00:00 +0000 UTC"]

/-- A listing of two pages in which the name `shared` occurs on both. -/
def twoPages : List (ListAccountsOutput × Option String) :=
  [(⟨[⟨"prod", "111111111111"⟩, ⟨"shared", "333333333333"⟩], some "page-2"⟩, none),
   (⟨[⟨"shared", "444444444444"⟩, ⟨"dev", "222222222222"⟩], none⟩, none)]

/-- The end-to-end world with the listing `twoPages`. -/
def twoPageWorld : World := { exWorld with listAccounts := twoPages }

/-- A listing of two pages with four distinct names. -/
def distinctPages : List (ListAccountsOutput × Option String) :=
  [(⟨[⟨"prod", "111111111111"⟩, ⟨"audit", "333333333333"⟩], some "page-2"⟩, none),
   (⟨[⟨"log", "444444444444"⟩, ⟨"dev", "222222222222"⟩], none⟩, none)]

/-- The end-to-end world with the listing `distinctPages`. -/
def distinctWorld : World := { exWorld with listAccounts := distinctPages }

/-- The end-to-end world in which `DescribeInstances` fails for account `prod`. -/
def failWorld : World :=
  { exWorld with
    describeInstances := fun svc =>
      if svc = ec2Client exConfig "111111111111" then (⟨[]⟩, some "AccessDenied")
      else (⟨[⟨[webInst]⟩]⟩, none) }

/-- The end-to-end world in which the describe response of `prod` lists `exInst` twice,
in two reservations. -/
def dupWorld : World :=
  { exWorld with describeInstances := fun _ => (⟨[⟨[exInst]⟩, ⟨[exInst]⟩]⟩, none) }

/-! ## Lemmas on the record set -/

theorem get_insert_self (result : RecordSet) (key : String) (fields : List String) :
    RecordSet.get (result.insert key fields) key = fields := by
  simp [RecordSet.get, AList.lookup_insert]

theorem appendField_insert (result : RecordSet) (key field : String) (fields : List String) :
    appendField (result.insert key fields) key field = result.insert key (fields ++ [field]) := by
  simp [appendField, get_insert_self, AList.insert_insert]

theorem len_insert (result : RecordSet) (key : String) (fields : List String) :
    RecordSet.len (result.insert key fields) = if key ∈ result then result.len else result.len + 1 := by
  have hk : ∀ r : RecordSet, r.len = r.keys.length := fun r => by
    simp [RecordSet.len, AList.keys, List.keys]
  rw [hk, hk, AList.keys_insert, List.length_cons, List.length_erase]
  by_cases h : key ∈ result
  · have h2 : key ∈ result.keys := AList.mem_keys.mp h
    have h3 : 0 < result.keys.length := List.length_pos_of_mem h2
    simp only [h, h2, if_true]
    omega
  · have h2 : key ∉ result.keys := fun hc => h (AList.mem_keys.mpr hc)
    simp [h, h2]

theorem len_insert_insert (result : RecordSet) (key : String) (f g : List String) :
    RecordSet.len (result.insert key f) = RecordSet.len (result.insert key g) := by
  rw [len_insert, len_insert]

theorem appendNameTags_insert (result : RecordSet) (key : String) (tags : List Tag) :
    ∀ fields : List String,
      appendNameTags (result.insert key fields) key tags
        = result.insert key (fields ++ nameTagValues tags) := by
  induction tags with
  | nil => intro fields; simp [appendNameTags, nameTagValues]
  | cons tag rest ih =>
    intro fields
    have ih2 := ih
    simp only [appendNameTags] at ih2 ⊢
    by_cases h : tag.Key = "Name"
    · simp only [List.foldl_cons, h, if_true, appendField_insert]
      rw [ih2]
      simp [nameTagValues, h]
    · simp only [List.foldl_cons, h, if_false]
      rw [ih2]
      simp [nameTagValues, h]

/-- The loop body as one store: the old record followed by the account fields, the
Name tag values, the `"N/A"` written when the record set has two entries, and the
seven instance attributes. -/
theorem processInstance_eq (accountName accountID : String) (result : RecordSet)
    (inst : Instance) :
    processInstance accountName accountID result inst
      = result.insert inst.InstanceId
          (result.get inst.InstanceId ++ [accountName, accountID] ++ nameTagValues inst.Tags
            ++ (if (appendField result inst.InstanceId accountName).len = 2 then ["N/A"] else [])
            ++ instanceFields inst) := by
  have hlen : ∀ fields : List String,
      RecordSet.len (result.insert inst.InstanceId fields)
        = (appendField result inst.InstanceId accountName).len := fun fields => by
    unfold appendField; exact len_insert_insert _ _ _ _
  generalize (appendField result inst.InstanceId accountName).len = n at hlen ⊢
  unfold processInstance
  simp only []
  rw [show appendField result inst.InstanceId accountName
        = result.insert inst.InstanceId (result.get inst.InstanceId ++ [accountName]) from rfl]
  rw [appendField_insert, appendNameTags_insert, hlen]
  by_cases h2 : n = 2
  · simp only [h2, if_true, appendField_insert]
    cases hp : inst.Platform <;> cases hi : inst.PrivateIpAddress <;>
      simp [appendField_insert, instanceFields, hp, hi]
  · simp only [h2, if_false, appendField_insert]
    cases hp : inst.Platform <;> cases hi : inst.PrivateIpAddress <;>
      simp [appendField_insert, instanceFields, hp, hi]

theorem lookup_processInstance_ne (accountName accountID : String) (result : RecordSet)
    (inst : Instance) (key : String) (h : key ≠ inst.InstanceId) :
    (processInstance accountName accountID result inst).lookup key = result.lookup key := by
  rw [processInstance_eq, AList.lookup_insert_ne h]

theorem lookup_processInstance_self (accountName accountID : String) (result : RecordSet)
    (inst : Instance) :
    (processInstance accountName accountID result inst).lookup inst.InstanceId
      = some (result.get inst.InstanceId ++ [accountName, accountID] ++ nameTagValues inst.Tags
          ++ (if (appendField result inst.InstanceId accountName).len = 2 then ["N/A"] else [])
          ++ instanceFields inst) := by
  rw [processInstance_eq, AList.lookup_insert]

theorem mem_processInstance (accountName accountID : String) (result : RecordSet)
    (inst : Instance) (key : String) :
    key ∈ processInstance accountName accountID result inst
      ↔ key = inst.InstanceId ∨ key ∈ result := by
  rw [processInstance_eq, AList.mem_insert]

theorem lookup_foldl_processInstance (accountName accountID : String) (key : String)
    (insts : List Instance) :
    ∀ result : RecordSet, key ∉ insts.map (fun i => i.InstanceId) →
      (insts.foldl (processInstance accountName accountID) result).lookup key
        = result.lookup key := by
  induction insts with
  | nil => intro result _; rfl
  | cons inst rest ih =>
    intro result h
    simp only [List.map_cons, List.mem_cons, not_or] at h
    rw [List.foldl_cons, ih _ h.2, lookup_processInstance_ne _ _ _ _ _ h.1]

theorem mem_foldl_processInstance (accountName accountID : String) (key : String)
    (insts : List Instance) :
    ∀ result : RecordSet,
      key ∈ insts.foldl (processInstance accountName accountID) result
        ↔ key ∈ insts.map (fun i => i.InstanceId) ∨ key ∈ result := by
  induction insts with
  | nil => intro result; simp
  | cons inst rest ih =>
    intro result
    rw [List.foldl_cons, ih, mem_processInstance]
    simp only [List.map_cons, List.mem_cons]
    tauto

/-- The two nested loops visit the instances of the response in order. -/
theorem processReservations_eq (accountName accountID : String) (result : RecordSet)
    (reservations : List Reservation) :
    processReservations accountName accountID result reservations
      = (allInstances reservations).foldl (processInstance accountName accountID) result := by
  have h : ∀ (rs : List Reservation) (r : RecordSet),
      rs.foldl (fun r reservation =>
          reservation.Instances.foldl (processInstance accountName accountID) r) r
        = (allInstances rs).foldl (processInstance accountName accountID) r := by
    intro rs
    induction rs with
    | nil => intro r; rfl
    | cons x xs ih =>
      intro r
      simp only [List.foldl_cons, allInstances, List.flatMap_cons, List.foldl_append]
      exact ih _
  unfold processReservations
  by_cases h0 : reservations.length ≠ 0
  · rw [if_pos h0, h]
  · rw [if_neg h0]
    have : reservations = [] := List.length_eq_zero.mp (not_not.mp h0)
    subst this
    rfl

theorem getAccountEc2_outcome (w : World) (config : Config) (accountName accountID : String)
    (result : RecordSet) (herr : (w.describeInstances (ec2Client config accountID)).2 = none) :
    (getAccountEc2 w config accountName accountID result).outcome
      = .ok ((allInstances (w.describeInstances (ec2Client config accountID)).1.Reservations).foldl
          (processInstance accountName accountID) result) := by
  unfold getAccountEc2
  simp only []
  rw [show ((⟨none, none⟩ : Clients).EC2 config.Region accountID config.OrganizationRole).client
        = ec2Client config accountID from rfl, herr, processReservations_eq]
  rfl

/-! ## Claims on `getAccountEc2` -/

/-- C1 (evaluation at the failing input): in the end-to-end example (empty record set,
account prod/111111111111, one instance `i-abc123` without Name tag, platform or
private IP) `getAccountEc2` stores a record of nine fields whose third field is the
instance type `"t3.micro"`: the `"N/A"` name default is not written. -/
theorem c1_name_default_missing :
    (getAccountEc2 exWorld exConfig "prod" "111111111111" ∅).outcome
        = .ok (AList.singleton "i-abc123"
            ["prod", "111111111111", "t3.micro", "i-abc123", "ami-1", "linux", "N/A", "running",
             "2020-01-01 00:00:00 +0000 UTC"])
      ∧ exInst.Tags.all (fun tag => tag.Key ≠ "Name") = true
      ∧ "i-abc123" ∉ (∅ : RecordSet) :=
  ⟨rfl, by decide, by decide⟩

/-- C2 (evaluation at the failing input): with a record set that holds one record of
another instance, an instance with exactly one Name tag (`"web"`), a platform and a
private IP gets a record of eleven fields: `"N/A"` is written after the Name tag value. -/
theorem c2_spurious_name_default :
    ((getAccountEc2 webWorld exConfig "test" "333333333333" otherRecords).outcome
        = .ok (AList.insert "i-web"
            ["test", "333333333333", "web", "N/A", "m5.large", "i-web", "ami-2", "windows",
             "10.0.0.5", "stopped", "2021-06-01 12:00:00 +0000 UTC"] otherRecords))
      ∧ nameTagValues webInst.Tags = ["web"]
      ∧ "i-web" ∉ otherRecords :=
  ⟨rfl, by decide, by decide⟩

/-- C7: for every instance of the describe response, whatever its tags and whatever the
record set holds, the loop body appends to the record under its ID, and the last seven
fields it appends are InstanceType, InstanceId, ImageId, Platform or `"linux"`,
PrivateIpAddress or `"N/A"`, State.Name and the rendered launch time, in this order;
they end the record `getAccountEc2` returns when no later instance of the response
has the same ID. -/
theorem c7_last_seven_fields (w : World) (config : Config) (accountName accountID : String)
    (result : RecordSet) (pre post : List Instance) (inst : Instance)
    (herr : (w.describeInstances (ec2Client config accountID)).2 = none)
    (hsplit : allInstances (w.describeInstances (ec2Client config accountID)).1.Reservations
      = pre ++ inst :: post) :
    (getAccountEc2 w config accountName accountID result).outcome
        = .ok (post.foldl (processInstance accountName accountID)
            (processInstance accountName accountID
              (pre.foldl (processInstance accountName accountID) result) inst))
      ∧ (∃ fields : List String,
          (processInstance accountName accountID
              (pre.foldl (processInstance accountName accountID) result) inst).lookup
                inst.InstanceId
            = some ((pre.foldl (processInstance accountName accountID) result).get inst.InstanceId
                ++ fields
                ++ [inst.InstanceType, inst.InstanceId, inst.ImageId, inst.Platform.getD "linux",
                    inst.PrivateIpAddress.getD "N/A", inst.State.Name, inst.LaunchTime.String]))
      ∧ (inst.InstanceId ∉ post.map (fun i => i.InstanceId) →
          ∃ fields : List String,
            (post.foldl (processInstance accountName accountID)
              (processInstance accountName accountID
                (pre.foldl (processInstance accountName accountID) result) inst)).lookup
                  inst.InstanceId
              = some (fields
                ++ [inst.InstanceType, inst.InstanceId, inst.ImageId, inst.Platform.getD "linux",
                    inst.PrivateIpAddress.getD "N/A", inst.State.Name, inst.LaunchTime.String])) := by
  refine ⟨?_, ?_, ?_⟩
  · rw [getAccountEc2_outcome w config accountName accountID result herr, hsplit,
      List.foldl_append, List.foldl_cons]
  · refine ⟨[accountName, accountID] ++ nameTagValues inst.Tags
        ++ (if (appendField (pre.foldl (processInstance accountName accountID) result)
              inst.InstanceId accountName).len = 2 then ["N/A"] else []), ?_⟩
    rw [lookup_processInstance_self]
    simp [instanceFields]
  · intro hpost
    rw [lookup_foldl_processInstance _ _ _ _ _ hpost, lookup_processInstance_self]
    exact ⟨_, rfl⟩

/-- C7 at the end-to-end example: one instance, nothing before or after it. -/
theorem c7_last_seven_fields_witness :
    (exWorld.describeInstances (ec2Client exConfig "111111111111")).2 = none
      ∧ allInstances (exWorld.describeInstances (ec2Client exConfig "111111111111")).1.Reservations
          = [] ++ exInst :: []
      ∧ ((getAccountEc2 exWorld exConfig "prod" "111111111111" ∅).outcome
          = .ok (([] : List Instance).foldl (processInstance "prod" "111111111111")
              (processInstance "prod" "111111111111"
                (([] : List Instance).foldl (processInstance "prod" "111111111111") ∅) exInst))
        ∧ (∃ fields : List String,
            (processInstance "prod" "111111111111"
                (([] : List Instance).foldl (processInstance "prod" "111111111111") ∅)
                  exInst).lookup exInst.InstanceId
              = some (RecordSet.get
                    (([] : List Instance).foldl (processInstance "prod" "111111111111") ∅)
                    exInst.InstanceId
                  ++ fields
                  ++ [exInst.InstanceType, exInst.InstanceId, exInst.ImageId,
                      exInst.Platform.getD "linux", exInst.PrivateIpAddress.getD "N/A",
                      exInst.State.Name, exInst.LaunchTime.String]))
        ∧ (exInst.InstanceId ∉ ([] : List Instance).map (fun i => i.InstanceId) →
            ∃ fields : List String,
              (([] : List Instance).foldl (processInstance "prod" "111111111111")
                (processInstance "prod" "111111111111"
                  (([] : List Instance).foldl (processInstance "prod" "111111111111") ∅)
                    exInst)).lookup exInst.InstanceId
                = some (fields
                  ++ [exInst.InstanceType, exInst.InstanceId, exInst.ImageId,
                      exInst.Platform.getD "linux", exInst.PrivateIpAddress.getD "N/A",
                      exInst.State.Name, exInst.LaunchTime.String]))) :=
  ⟨rfl, rfl, c7_last_seven_fields exWorld exConfig "prod" "111111111111" ∅ [] [] exInst rfl rfl⟩

/-- C8: when the describe response has no reservations and no error, `getAccountEc2`
returns the record set it was given, unchanged. -/
theorem c8_zero_reservations_unchanged (w : World) (config : Config)
    (accountName accountID : String) (result : RecordSet)
    (herr : (w.describeInstances (ec2Client config accountID)).2 = none)
    (hzero : (w.describeInstances (ec2Client config accountID)).1.Reservations = []) :
    (getAccountEc2 w config accountName accountID result).outcome = .ok result := by
  rw [getAccountEc2_outcome w config accountName accountID result herr, hzero]
  rfl

/-- C8 at the end-to-end example: account `dev` has no reservations. -/
theorem c8_zero_reservations_unchanged_witness :
    (exWorld.describeInstances (ec2Client exConfig "222222222222")).2 = none
      ∧ (exWorld.describeInstances (ec2Client exConfig "222222222222")).1.Reservations = []
      ∧ (getAccountEc2 exWorld exConfig "dev" "222222222222" otherRecords).outcome
          = .ok otherRecords :=
  ⟨rfl, rfl, c8_zero_reservations_unchanged exWorld exConfig "dev" "222222222222" otherRecords
    rfl rfl⟩

/-- C10 (counterexample): with the empty record set and a describe response that lists
the untagged instance `i-abc123` twice, the ID has no entry in the record set, the
record set never holds two IDs, and the stored record has eighteen fields, not
`9 + 0 + 0`: the second visit appends to the record of the first. -/
theorem c10_duplicate_id_longer_record :
    exInst.InstanceId ∉ (∅ : RecordSet)
      ∧ (getAccountEc2 dupWorld exConfig "prod" "111111111111" ∅).outcome
          = .ok (AList.singleton "i-abc123"
              ["prod", "111111111111", "t3.micro", "i-abc123", "ami-1", "linux", "N/A", "running",
               "2020-01-01 00:00:00 +0000 UTC",
               "prod", "111111111111", "t3.micro", "i-abc123", "ami-1", "linux", "N/A", "running",
               "2020-01-01 00:00:00 +0000 UTC"])
      ∧ (exInst.Tags.filter (fun tag => tag.Key = "Name")).length = 0
      ∧ (appendField ∅ exInst.InstanceId "prod").len ≠ 2
      ∧ ¬ (∃ (final : RecordSet) (record : List String),
            (getAccountEc2 dupWorld exConfig "prod" "111111111111" ∅).outcome = .ok final
              ∧ final.lookup exInst.InstanceId = some record
              ∧ record.length = 9 + (exInst.Tags.filter (fun tag => tag.Key = "Name")).length
                  + (if (appendField ∅ exInst.InstanceId "prod").len = 2 then 1 else 0)) := by
  have hout : (getAccountEc2 dupWorld exConfig "prod" "111111111111" ∅).outcome
      = .ok (AList.singleton "i-abc123"
          ["prod", "111111111111", "t3.micro", "i-abc123", "ami-1", "linux", "N/A", "running",
           "2020-01-01 00:00:00 +0000 UTC",
           "prod", "111111111111", "t3.micro", "i-abc123", "ami-1", "linux", "N/A", "running",
           "2020-01-01 00:00:00 +0000 UTC"]) := rfl
  refine ⟨by decide, hout, by decide, by decide, ?_⟩
  rintro ⟨final, record, hfinal, hrec, hlen⟩
  rw [hout] at hfinal
  injection hfinal with hfinal
  subst hfinal
  have hrec2 : some ["prod", "111111111111", "t3.micro", "i-abc123", "ami-1", "linux", "N/A",
      "running", "2020-01-01 00:00:00 +0000 UTC",
      "prod", "111111111111", "t3.micro", "i-abc123", "ami-1", "linux", "N/A", "running",
      "2020-01-01 00:00:00 +0000 UTC"] = some record := hrec
  injection hrec2 with hrec2
  subst hrec2
  revert hlen
  decide

/-- C10 (amended): for an instance whose ID has no entry in the record set and occurs
exactly once among the instances of the describe response, the record `getAccountEc2`
stores under that ID has length `9 + t + d`, with `t` the number of its tags with key
`"Name"` and `d = 1` exactly when the record set holds two entries right after the
instance's key was inserted (that is, when it held one entry before), whatever the
tags are; the record has the ten fields of the CSV header exactly when `t + d = 1`. -/
theorem c10_record_length (w : World) (config : Config) (accountName accountID : String)
    (result : RecordSet) (pre post : List Instance) (inst : Instance)
    (herr : (w.describeInstances (ec2Client config accountID)).2 = none)
    (hsplit : allInstances (w.describeInstances (ec2Client config accountID)).1.Reservations
      = pre ++ inst :: post)
    (hnew : inst.InstanceId ∉ result)
    (hpre : inst.InstanceId ∉ pre.map (fun i => i.InstanceId))
    (hpost : inst.InstanceId ∉ post.map (fun i => i.InstanceId)) :
    ∃ (final : RecordSet) (record : List String),
      (getAccountEc2 w config accountName accountID result).outcome = .ok final
        ∧ final.lookup inst.InstanceId = some record
        ∧ record.length = 9 + (inst.Tags.filter (fun tag => tag.Key = "Name")).length
            + (if (appendField (pre.foldl (processInstance accountName accountID) result)
                inst.InstanceId accountName).len = 2 then 1 else 0)
        ∧ ((appendField (pre.foldl (processInstance accountName accountID) result)
              inst.InstanceId accountName).len = 2
            ↔ (pre.foldl (processInstance accountName accountID) result).len = 1)
        ∧ (record.length = headers.length
            ↔ (inst.Tags.filter (fun tag => tag.Key = "Name")).length
                + (if (appendField (pre.foldl (processInstance accountName accountID) result)
                    inst.InstanceId accountName).len = 2 then 1 else 0) = 1) := by
  have hbefore : inst.InstanceId ∉ pre.foldl (processInstance accountName accountID) result := by
    rw [mem_foldl_processInstance]
    tauto
  have hget : (pre.foldl (processInstance accountName accountID) result).get inst.InstanceId
      = [] := by
    simp [RecordSet.get, AList.lookup_eq_none.mpr hbefore]
  have hlen : (appendField (pre.foldl (processInstance accountName accountID) result)
      inst.InstanceId accountName).len
        = (pre.foldl (processInstance accountName accountID) result).len + 1 := by
    unfold appendField
    rw [len_insert, if_neg hbefore]
  refine ⟨post.foldl (processInstance accountName accountID)
      (processInstance accountName accountID
        (pre.foldl (processInstance accountName accountID) result) inst),
    (pre.foldl (processInstance accountName accountID) result).get inst.InstanceId
      ++ [accountName, accountID] ++ nameTagValues inst.Tags
      ++ (if (appendField (pre.foldl (processInstance accountName accountID) result)
            inst.InstanceId accountName).len = 2 then ["N/A"] else [])
      ++ instanceFields inst, ?_, ?_, ?_, ?_, ?_⟩
  · rw [getAccountEc2_outcome w config accountName accountID result herr, hsplit,
      List.foldl_append, List.foldl_cons]
  · rw [lookup_foldl_processInstance _ _ _ _ _ hpost, lookup_processInstance_self]
  · rw [hget]
    by_cases h2 : (appendField (pre.foldl (processInstance accountName accountID) result)
        inst.InstanceId accountName).len = 2
    · simp [h2, instanceFields, nameTagValues]; omega
    · simp [h2, instanceFields, nameTagValues]; omega
  · rw [hlen]
    omega
  · rw [hget]
    by_cases h2 : (appendField (pre.foldl (processInstance accountName accountID) result)
        inst.InstanceId accountName).len = 2
    · simp [h2, instanceFields, nameTagValues, headers]
    · simp [h2, instanceFields, nameTagValues, headers]

/-- C10 (amended) at a record set with one record: `webInst` has one Name tag and the record set
holds two entries once its key is inserted, so its record has eleven fields. -/
theorem c10_record_length_witness :
    (webWorld.describeInstances (ec2Client exConfig "333333333333")).2 = none
      ∧ allInstances (webWorld.describeInstances (ec2Client exConfig "333333333333")).1.Reservations
          = [] ++ webInst :: []
      ∧ webInst.InstanceId ∉ otherRecords
      ∧ webInst.InstanceId ∉ ([] : List Instance).map (fun i => i.InstanceId)
      ∧ webInst.InstanceId ∉ ([] : List Instance).map (fun i => i.InstanceId)
      ∧ ∃ (final : RecordSet) (record : List String),
          (getAccountEc2 webWorld exConfig "test" "333333333333" otherRecords).outcome = .ok final
            ∧ final.lookup webInst.InstanceId = some record
            ∧ record.length = 9 + (webInst.Tags.filter (fun tag => tag.Key = "Name")).length
                + (if (appendField
                      (([] : List Instance).foldl (processInstance "test" "333333333333")
                        otherRecords)
                      webInst.InstanceId "test").len = 2 then 1 else 0)
            ∧ ((appendField
                  (([] : List Instance).foldl (processInstance "test" "333333333333") otherRecords)
                  webInst.InstanceId "test").len = 2
                ↔ RecordSet.len
                    (([] : List Instance).foldl (processInstance "test" "333333333333")
                      otherRecords) = 1)
            ∧ (record.length = headers.length
                ↔ (webInst.Tags.filter (fun tag => tag.Key = "Name")).length
                    + (if (appendField
                          (([] : List Instance).foldl (processInstance "test" "333333333333")
                            otherRecords)
                          webInst.InstanceId "test").len = 2 then 1 else 0) = 1) :=
  ⟨rfl, rfl, by decide, by decide, by decide,
    c10_record_length webWorld exConfig "test" "333333333333" otherRecords [] [] webInst rfl rfl
      (by decide) (by decide) (by decide)⟩

/-! ## Claims on `Clients` -/

/-- C3 (evaluation at the failing input): on the zero `Clients` value of line 70, a call
of `Config` for (us-east-1, 111111111111, OrgRole) leaves the caller's cache nil, and
a second call with the same arguments derives credentials again; two successive
`getAccountEc2` runs for that account call `stscreds.NewCredentials` twice. -/
theorem c3_credentials_derived_twice :
    ((⟨none, none⟩ : Clients).Config (some "us-east-1") (some "111111111111")
        (some "OrgRole")).caller = ⟨none, none⟩
      ∧ (((⟨none, none⟩ : Clients).Config (some "us-east-1") (some "111111111111")
            (some "OrgRole")).trace
          ++ (((⟨none, none⟩ : Clients).Config (some "us-east-1") (some "111111111111")
              (some "OrgRole")).caller.Config (some "us-east-1") (some "111111111111")
                (some "OrgRole")).trace).count
            (Event.newCredentials "arn:aws:iam::111111111111:role/OrgRole") = 2
      ∧ ((getAccountEc2 exWorld exConfig "prod" "111111111111" ∅).trace
          ++ (getAccountEc2 exWorld exConfig "prod" "111111111111" ∅).trace).count
            (Event.newCredentials "arn:aws:iam::111111111111:role/OrgRole") = 2 := by
  refine ⟨rfl, ?_, ?_⟩ <;> decide

/-- C5 (counterexample): for the configuration (us-east-1, OrgRole, 000000000000) the
config handed to the Organizations client is not nil, and credentials are derived for
the role ARN built from `MasterAccountID`. -/
theorem c5_organization_config_not_nil :
    (organizationClient exConfig).config ≠ none
      ∧ Event.newCredentials "arn:aws:iam::000000000000:role/OrgRole"
          ∈ (getOrganizationAccounts exWorld exConfig).trace := by
  decide

theorem roleARN_injective_account (a b role : String) (h : roleARN a role = roleARN b role) :
    a = b := by
  unfold roleARN at h
  have h2 := congrArg String.data h
  simp only [String.data_append, List.append_assoc] at h2
  have h3 := List.append_cancel_left h2
  rw [← List.append_assoc, ← List.append_assoc] at h3
  have h4 := List.append_cancel_right h3
  exact String.ext (List.append_cancel_right h4)

theorem listAccountsLoop_events (svc : ServiceClient)
    (script : List (ListAccountsOutput × Option String)) :
    ∀ (input : ListAccountsInput) (accounts : AccountMap) (e : Event),
      e ∈ (listAccountsLoop svc script input accounts).trace →
        ∃ i : ListAccountsInput, e = Event.listAccounts svc i := by
  induction script with
  | nil =>
    intro input accounts e he
    simp only [listAccountsLoop, List.mem_singleton] at he
    exact ⟨input, he⟩
  | cons x rest ih =>
    intro input accounts e he
    obtain ⟨page, err⟩ := x
    cases err with
    | some msg =>
      simp only [listAccountsLoop, List.mem_singleton] at he
      exact ⟨input, he⟩
    | none =>
      cases htok : page.NextToken with
      | none =>
        simp only [listAccountsLoop, htok, List.mem_singleton] at he
        exact ⟨input, he⟩
      | some token =>
        simp only [listAccountsLoop, htok, List.mem_cons] at he
        rcases he with he | he
        · exact ⟨input, he⟩
        · exact ih _ _ e he

/-- C5 (amended): for every configuration and every environment, `getOrganizationAccounts`
first derives credentials for the role ARN built from `MasterAccountID` and
`OrganizationRole`, then issues its first `ListAccounts` call, and every `ListAccounts`
call goes through a client whose config is not nil: it carries these credentials, the
region `Region` and 10 retries.  Two configurations that differ only in
`MasterAccountID` give different clients. -/
theorem c5_organization_client_assumes_role (w : World) (config : Config) :
    (∃ rest : List Event,
        (getOrganizationAccounts w config).trace
          = [Event.newSession, Event.newSession,
              Event.newCredentials (roleARN config.MasterAccountID config.OrganizationRole),
              Event.listAccounts (organizationClient config) ⟨none⟩] ++ rest)
      ∧ (organizationClient config).config
          = some ⟨⟨roleARN config.MasterAccountID config.OrganizationRole⟩, config.Region, 10⟩
      ∧ (∀ (svc : ServiceClient) (input : ListAccountsInput),
          Event.listAccounts svc input ∈ (getOrganizationAccounts w config).trace →
            svc.config
              = some ⟨⟨roleARN config.MasterAccountID config.OrganizationRole⟩, config.Region, 10⟩)
      ∧ (∀ master : String, master ≠ config.MasterAccountID →
          organizationClient { config with MasterAccountID := master }
            ≠ organizationClient config) := by
  have hclient : (organizationClient config).config
      = some ⟨⟨roleARN config.MasterAccountID config.OrganizationRole⟩, config.Region, 10⟩ := rfl
  have htrace : (getOrganizationAccounts w config).trace
      = [Event.newSession, Event.newSession,
          Event.newCredentials (roleARN config.MasterAccountID config.OrganizationRole)]
        ++ (listAccountsLoop (organizationClient config) w.listAccounts ⟨none⟩ ∅).trace := rfl
  refine ⟨?_, hclient, ?_, ?_⟩
  · rw [htrace]
    cases hs : w.listAccounts with
    | nil => exact ⟨[], by simp [listAccountsLoop]⟩
    | cons x rest =>
      obtain ⟨page, err⟩ := x
      cases err with
      | some msg => exact ⟨[], by simp [listAccountsLoop]⟩
      | none =>
        cases htok : page.NextToken with
        | none => exact ⟨[], by simp [listAccountsLoop, htok]⟩
        | some token => exact ⟨_, by simp [listAccountsLoop, htok]; rfl⟩
  · intro svc input hmem
    rw [htrace, List.mem_append] at hmem
    rcases hmem with hmem | hmem
    · simp at hmem
    · obtain ⟨i, hi⟩ := listAccountsLoop_events _ _ _ _ _ hmem
      injection hi with hsvc _
      rw [hsvc, hclient]
  · intro master hne heq
    have h1 := congrArg ServiceClient.config heq
    have h2 : (organizationClient { config with MasterAccountID := master }).config
        = some ⟨⟨roleARN master config.OrganizationRole⟩, config.Region, 10⟩ := rfl
    rw [h2, hclient] at h1
    injection h1 with h1
    injection h1 with h1 _ _
    injection h1 with h1
    exact hne (roleARN_injective_account _ _ _ h1)

/-! ## Claims on `getOrganizationAccounts` -/

theorem addAccounts_append (m : AccountMap) (xs ys : List Account) :
    addAccounts m (xs ++ ys) = addAccounts (addAccounts m xs) ys := by
  simp [addAccounts, List.foldl_append]

theorem mem_addAccounts (name : String) (accounts : List Account) :
    ∀ m : AccountMap,
      name ∈ addAccounts m accounts ↔ (∃ account ∈ accounts, account.Name = name) ∨ name ∈ m := by
  induction accounts with
  | nil => intro m; simp [addAccounts]
  | cons x rest ih =>
    intro m
    have hstep : addAccounts m (x :: rest) = addAccounts (m.insert x.Name x.Id) rest := rfl
    rw [hstep, ih, AList.mem_insert]
    simp only [List.mem_cons, exists_eq_or_imp]
    constructor
    · rintro (h | h | h)
      · exact Or.inl (Or.inr h)
      · exact Or.inl (Or.inl h.symm)
      · exact Or.inr h
    · rintro ((h | h) | h)
      · exact Or.inr (Or.inl h.symm)
      · exact Or.inl h
      · exact Or.inr (Or.inr h)

theorem lookup_addAccounts_of_not_mem (name : String) (accounts : List Account) :
    ∀ m : AccountMap, (∀ account ∈ accounts, account.Name ≠ name) →
      (addAccounts m accounts).lookup name = m.lookup name := by
  induction accounts with
  | nil => intro m _; rfl
  | cons x rest ih =>
    intro m h
    have hstep : addAccounts m (x :: rest) = addAccounts (m.insert x.Name x.Id) rest := rfl
    rw [hstep, ih _ (fun a ha => h a (List.mem_cons_of_mem _ ha))]
    exact AList.lookup_insert_ne (fun hc => h x (List.mem_cons_self _ _) hc.symm)

/-- Last write wins: the map holds, for an account after which no account of the same
name is stored, this account's ID. -/
theorem lookup_addAccounts_last (m : AccountMap) (pre post : List Account) (account : Account)
    (hlast : ∀ later ∈ post, later.Name ≠ account.Name) :
    (addAccounts m (pre ++ account :: post)).lookup account.Name = some account.Id := by
  rw [addAccounts_append]
  have hstep : addAccounts (addAccounts m pre) (account :: post)
      = addAccounts ((addAccounts m pre).insert account.Name account.Id) post := rfl
  rw [hstep, lookup_addAccounts_of_not_mem _ _ _ hlast, AList.lookup_insert]

theorem listAccountsLoop_next (svc : ServiceClient) (page : ListAccountsOutput)
    (rest : List (ListAccountsOutput × Option String)) (input : ListAccountsInput)
    (accounts : AccountMap) (token : String) (h : page.NextToken = some token) :
    listAccountsLoop svc ((page, none) :: rest) input accounts
      = ⟨Event.listAccounts svc input
          :: (listAccountsLoop svc rest ⟨some token⟩ (addAccounts accounts page.Accounts)).trace,
        (listAccountsLoop svc rest ⟨some token⟩ (addAccounts accounts page.Accounts)).outcome⟩ := by
  rw [listAccountsLoop]
  simp only [h]

/-- The loop of `getOrganizationAccounts` on a paged listing: it returns, it has stored
the accounts of all pages in order, and it has issued one call per answer, each after
the first with the token of the answer before. -/
theorem listAccountsLoop_paged (svc : ServiceClient)
    (script : List (ListAccountsOutput × Option String)) :
    ∀ (input : ListAccountsInput) (accounts : AccountMap), PagedListing script →
      (listAccountsLoop svc script input accounts).outcome
          = .ok (addAccounts accounts (allAccounts script))
        ∧ listAccountsCalls (listAccountsLoop svc script input accounts).trace
          = input :: script.dropLast.map (fun answer => ⟨answer.1.NextToken⟩) := by
  induction script with
  | nil => intro input accounts h; exact absurd rfl h.1
  | cons x rest ih =>
    intro input accounts h
    obtain ⟨_, herr, htok, hlast⟩ := h
    obtain ⟨page, err⟩ := x
    have he : err = none := herr (page, err) (List.mem_cons_self _ _)
    subst he
    cases rest with
    | nil =>
      have hnone : page.NextToken = none := by simpa using hlast
      simp [listAccountsLoop, hnone, allAccounts, listAccountsCalls]
    | cons y rest2 =>
      have hsome : page.NextToken ≠ none :=
        htok (page, none) (by simp [List.dropLast])
      obtain ⟨token, htoken⟩ := Option.ne_none_iff_exists'.mp hsome
      have hrest : PagedListing (y :: rest2) := by
        refine ⟨List.cons_ne_nil _ _, ?_, ?_, ?_⟩
        · intro a ha
          exact herr a (List.mem_cons_of_mem _ ha)
        · intro a ha
          exact htok a (by simp only [List.dropLast_cons₂]; exact List.mem_cons_of_mem _ ha)
        · simpa using hlast
      obtain ⟨ih1, ih2⟩ := ih ⟨some token⟩ (addAccounts accounts page.Accounts) hrest
      rw [listAccountsLoop_next svc page (y :: rest2) input accounts token htoken]
      constructor
      · show (listAccountsLoop svc (y :: rest2) ⟨some token⟩
            (addAccounts accounts page.Accounts)).outcome = _
        rw [ih1]
        have hall : allAccounts ((page, none) :: y :: rest2)
            = page.Accounts ++ allAccounts (y :: rest2) := by
          simp [allAccounts, List.flatMap_cons]
        rw [hall, addAccounts_append]
      · show listAccountsCalls (Event.listAccounts svc input
            :: (listAccountsLoop svc (y :: rest2) ⟨some token⟩
                (addAccounts accounts page.Accounts)).trace) = _
        have hcons : ∀ t : List Event,
            listAccountsCalls (Event.listAccounts svc input :: t)
              = input :: listAccountsCalls t := fun t => rfl
        rw [hcons, ih2]
        simp [htoken]

/-- The trace of `getOrganizationAccounts`: the client's creation, then the loop. -/
theorem getOrganizationAccounts_calls (w : World) (config : Config) :
    listAccountsCalls (getOrganizationAccounts w config).trace
      = listAccountsCalls
          (listAccountsLoop (organizationClient config) w.listAccounts ⟨none⟩ ∅).trace := by
  have htrace : (getOrganizationAccounts w config).trace
      = [Event.newSession, Event.newSession,
          Event.newCredentials (roleARN config.MasterAccountID config.OrganizationRole)]
        ++ (listAccountsLoop (organizationClient config) w.listAccounts ⟨none⟩ ∅).trace := rfl
  rw [htrace]
  simp [listAccountsCalls, List.filterMap_append]

/-- C4: on a listing of `N ≥ 1` answers without error, each but the last with a
continuation token, `getOrganizationAccounts` returns after exactly `N` calls, the first
without token and every later one with the token of the answer before; the returned
map has exactly the account names of the `N` pages as keys, and when these names are
pairwise distinct every account's name maps to its own ID and the map has one entry
per account. -/
theorem c4_pagination_complete (w : World) (config : Config)
    (hpaged : PagedListing w.listAccounts) :
    ∃ accounts : AccountMap,
      (getOrganizationAccounts w config).outcome = .ok accounts
        ∧ listAccountsCalls (getOrganizationAccounts w config).trace
            = ⟨none⟩ :: w.listAccounts.dropLast.map (fun answer => ⟨answer.1.NextToken⟩)
        ∧ (listAccountsCalls (getOrganizationAccounts w config).trace).length
            = w.listAccounts.length
        ∧ (∀ name : String,
            name ∈ accounts ↔ ∃ account ∈ allAccounts w.listAccounts, account.Name = name)
        ∧ (((allAccounts w.listAccounts).map (fun account => account.Name)).Nodup →
            (∀ account ∈ allAccounts w.listAccounts,
                accounts.lookup account.Name = some account.Id)
              ∧ accounts.entries.length = (allAccounts w.listAccounts).length) := by
  obtain ⟨h1, h2⟩ := listAccountsLoop_paged (organizationClient config) w.listAccounts ⟨none⟩ ∅
    hpaged
  have hkeys : ∀ name : String,
      name ∈ addAccounts ∅ (allAccounts w.listAccounts)
        ↔ ∃ account ∈ allAccounts w.listAccounts, account.Name = name := by
    intro name
    rw [mem_addAccounts]
    simp
  refine ⟨addAccounts ∅ (allAccounts w.listAccounts), h1, ?_, ?_, hkeys, ?_⟩
  · rw [getOrganizationAccounts_calls, h2]
  · rw [getOrganizationAccounts_calls, h2]
    have hpos : 0 < w.listAccounts.length := List.length_pos.mpr hpaged.1
    simp only [List.length_cons, List.length_map, List.length_dropLast]
    omega
  · intro hnodup
    constructor
    · intro account hmem
      obtain ⟨pre, post, hsplit⟩ := List.append_of_mem hmem
      rw [hsplit] at hnodup ⊢
      apply lookup_addAccounts_last
      intro later hlater hname
      rw [List.map_append, List.map_cons] at hnodup
      have hnd := (List.nodup_append.mp hnodup).2.1
      rw [List.nodup_cons] at hnd
      exact hnd.1 (hname ▸ List.mem_map_of_mem (fun account => account.Name) hlater)
    · have hperm : (addAccounts ∅ (allAccounts w.listAccounts)).keys.Perm
          ((allAccounts w.listAccounts).map (fun account => account.Name)) := by
        rw [List.perm_ext_iff_of_nodup (AList.keys_nodup _) hnodup]
        intro name
        rw [← AList.mem_keys, hkeys]
        simp [List.mem_map]
      have hlen := hperm.length_eq
      simpa [AList.keys, List.keys] using hlen

/-- C4 at a listing of two pages with four distinct names: two calls, four accounts. -/
theorem c4_pagination_complete_witness :
    PagedListing distinctWorld.listAccounts
      ∧ ∃ accounts : AccountMap,
        (getOrganizationAccounts distinctWorld exConfig).outcome = .ok accounts
          ∧ listAccountsCalls (getOrganizationAccounts distinctWorld exConfig).trace
              = ⟨none⟩ :: distinctWorld.listAccounts.dropLast.map (fun answer => ⟨answer.1.NextToken⟩)
          ∧ (listAccountsCalls (getOrganizationAccounts distinctWorld exConfig).trace).length
              = distinctWorld.listAccounts.length
          ∧ (∀ name : String,
              name ∈ accounts ↔ ∃ account ∈ allAccounts distinctWorld.listAccounts, account.Name = name)
          ∧ (((allAccounts distinctWorld.listAccounts).map (fun account => account.Name)).Nodup →
              (∀ account ∈ allAccounts distinctWorld.listAccounts,
                  accounts.lookup account.Name = some account.Id)
                ∧ accounts.entries.length = (allAccounts distinctWorld.listAccounts).length) :=
  ⟨⟨by decide, by decide, by decide, by decide⟩,
    c4_pagination_complete distinctWorld exConfig ⟨by decide, by decide, by decide, by decide⟩⟩

/-- C9: on a paged listing, for an account of the concatenated pages after which no
account has the same name (the last occurrence of its name, on whatever page the
earlier ones are), the map returned by `getOrganizationAccounts` holds this account's
ID under the name, and holds exactly one entry for the name. -/
theorem c9_last_write_wins (w : World) (config : Config) (pre post : List Account)
    (account : Account) (hpaged : PagedListing w.listAccounts)
    (hsplit : allAccounts w.listAccounts = pre ++ account :: post)
    (hlast : ∀ later ∈ post, later.Name ≠ account.Name) :
    ∃ accounts : AccountMap,
      (getOrganizationAccounts w config).outcome = .ok accounts
        ∧ accounts.lookup account.Name = some account.Id
        ∧ accounts.keys.count account.Name = 1 := by
  obtain ⟨h1, _⟩ := listAccountsLoop_paged (organizationClient config) w.listAccounts ⟨none⟩ ∅
    hpaged
  refine ⟨addAccounts ∅ (allAccounts w.listAccounts), h1, ?_, ?_⟩
  · rw [hsplit]
    exact lookup_addAccounts_last ∅ pre post account hlast
  · apply List.count_eq_one_of_mem (AList.keys_nodup _)
    rw [← AList.mem_keys, mem_addAccounts]
    exact Or.inl ⟨account, by rw [hsplit]; simp, rfl⟩

/-- C9 at a listing of two pages with the name `shared` on both: the ID of the second
page is kept. -/
theorem c9_last_write_wins_witness :
    PagedListing twoPageWorld.listAccounts
      ∧ allAccounts twoPageWorld.listAccounts
          = [⟨"prod", "111111111111"⟩, ⟨"shared", "333333333333"⟩]
            ++ ⟨"shared", "444444444444"⟩ :: [⟨"dev", "222222222222"⟩]
      ∧ (∀ later ∈ [(⟨"dev", "222222222222"⟩ : Account)],
          later.Name ≠ (⟨"shared", "444444444444"⟩ : Account).Name)
      ∧ ∃ accounts : AccountMap,
          (getOrganizationAccounts twoPageWorld exConfig).outcome = .ok accounts
            ∧ accounts.lookup (⟨"shared", "444444444444"⟩ : Account).Name
                = some (⟨"shared", "444444444444"⟩ : Account).Id
            ∧ accounts.keys.count (⟨"shared", "444444444444"⟩ : Account).Name = 1 :=
  ⟨⟨by decide, by decide, by decide, by decide⟩, by decide, by decide,
    c9_last_write_wins twoPageWorld exConfig
      [⟨"prod", "111111111111"⟩, ⟨"shared", "333333333333"⟩] [⟨"dev", "222222222222"⟩]
      ⟨"shared", "444444444444"⟩ ⟨by decide, by decide, by decide, by decide⟩
      (by decide) (by decide)⟩

/-! ## Claims on `main` -/

theorem bind_ok {α β : Type} (r : Run α) (f : α → Run β) (v : α) (h : r.outcome = .ok v) :
    r.bind f = ⟨r.trace ++ (f v).trace, (f v).outcome⟩ := by
  unfold Run.bind
  rw [h]

theorem bind_fatal {α β : Type} (r : Run α) (f : α → Run β) (msg : String)
    (h : r.outcome = .fatal msg) : r.bind f = ⟨r.trace, .fatal msg⟩ := by
  unfold Run.bind
  rw [h]

theorem getAccountEc2_eq (w : World) (config : Config) (accountName accountID : String)
    (result : RecordSet) :
    getAccountEc2 w config accountName accountID result
      = checkError "Could not retrieve the EC2s"
          (w.describeInstances (ec2Client config accountID)).2 (ec2Trace config accountID)
          (processReservations accountName accountID result
            (w.describeInstances (ec2Client config accountID)).1.Reservations) := rfl

theorem getAccountEc2_ok (w : World) (config : Config) (accountName accountID : String)
    (result : RecordSet) (h : (w.describeInstances (ec2Client config accountID)).2 = none) :
    getAccountEc2 w config accountName accountID result
      = ⟨ec2Trace config accountID,
          .ok (processReservations accountName accountID result
            (w.describeInstances (ec2Client config accountID)).1.Reservations)⟩ := by
  rw [getAccountEc2_eq, h]
  rfl

theorem getAccountEc2_fatal (w : World) (config : Config) (accountName accountID : String)
    (result : RecordSet) (e : String)
    (h : (w.describeInstances (ec2Client config accountID)).2 = some e) :
    getAccountEc2 w config accountName accountID result
      = ⟨ec2Trace config accountID, .fatal ("Could not retrieve the EC2s" ++ e)⟩ := by
  rw [getAccountEc2_eq, h]
  rfl

/-- The loop of `main` over accounts whose describe calls succeed, followed by the rest. -/
theorem accountsLoop_append (w : World) (config : Config) (pre post : List (String × String)) :
    ∀ result : RecordSet,
      (∀ a ∈ pre, (w.describeInstances (ec2Client config a.2)).2 = none) →
      accountsLoop w config (pre ++ post) result
        = ⟨pre.flatMap (fun a => ec2Trace config a.2)
            ++ (accountsLoop w config post (accumulate w config pre result)).trace,
          (accountsLoop w config post (accumulate w config pre result)).outcome⟩ := by
  induction pre with
  | nil => intro result _; simp [accumulate]
  | cons a rest ih =>
    intro result h
    obtain ⟨accountName, accountID⟩ := a
    have ha : (w.describeInstances (ec2Client config accountID)).2 = none :=
      h (accountName, accountID) (List.mem_cons_self _ _)
    have hrest : ∀ b ∈ rest, (w.describeInstances (ec2Client config b.2)).2 = none :=
      fun b hb => h b (List.mem_cons_of_mem _ hb)
    rw [List.cons_append, accountsLoop,
      bind_ok _ _ _ (congrArg Run.outcome (getAccountEc2_ok w config accountName accountID
        result ha)),
      ih _ hrest, getAccountEc2_ok w config accountName accountID result ha]
    simp [accumulate, List.flatMap_cons]

theorem describeCalls_append (s t : List Event) :
    describeCalls (s ++ t) = describeCalls s ++ describeCalls t := by
  simp [describeCalls, List.filterMap_append]

theorem fileEvents_append (s t : List Event) :
    fileEvents (s ++ t) = fileEvents s ++ fileEvents t := by
  simp [fileEvents, List.filter_append]

theorem describeCalls_ec2Traces (config : Config) (order : List (String × String)) :
    describeCalls (order.flatMap (fun a => ec2Trace config a.2))
      = order.map (fun a => ec2Client config a.2) := by
  induction order with
  | nil => rfl
  | cons a rest ih =>
    rw [List.flatMap_cons, describeCalls_append, ih]
    rfl

theorem fileEvents_ec2Traces (config : Config) (order : List (String × String)) :
    fileEvents (order.flatMap (fun a => ec2Trace config a.2)) = [] := by
  induction order with
  | nil => rfl
  | cons a rest ih =>
    rw [List.flatMap_cons, fileEvents_append, ih]
    rfl

theorem getOrganizationAccounts_trace (w : World) (config : Config) :
    (getOrganizationAccounts w config).trace
      = [Event.newSession, Event.newSession,
          Event.newCredentials (roleARN config.MasterAccountID config.OrganizationRole)]
        ++ (listAccountsLoop (organizationClient config) w.listAccounts ⟨none⟩ ∅).trace := rfl

theorem getOrganizationAccounts_quiet (w : World) (config : Config) :
    describeCalls (getOrganizationAccounts w config).trace = []
      ∧ fileEvents (getOrganizationAccounts w config).trace = [] := by
  rw [getOrganizationAccounts_trace, describeCalls_append, fileEvents_append]
  have hloop : ∀ e ∈ (listAccountsLoop (organizationClient config) w.listAccounts ⟨none⟩ ∅).trace,
      ∃ i : ListAccountsInput, e = Event.listAccounts (organizationClient config) i :=
    fun e he => listAccountsLoop_events _ _ _ _ e he
  constructor
  · have h2 : describeCalls
        (listAccountsLoop (organizationClient config) w.listAccounts ⟨none⟩ ∅).trace = [] := by
      unfold describeCalls
      rw [List.filterMap_eq_nil_iff]
      intro e he
      obtain ⟨i, hi⟩ := hloop e he
      rw [hi]
    rw [h2]
    rfl
  · have h2 : fileEvents
        (listAccountsLoop (organizationClient config) w.listAccounts ⟨none⟩ ∅).trace = [] := by
      unfold fileEvents
      rw [List.filter_eq_nil_iff]
      intro e he
      obtain ⟨i, hi⟩ := hloop e he
      rw [hi]
      simp
    rw [h2]
    rfl

theorem writeRows_events (w : World) (rows : List (List String)) :
    ∀ e ∈ (writeRows w rows).trace, ∃ row : List String, e = Event.writeRow row := by
  induction rows with
  | nil => intro e he; simp [writeRows] at he
  | cons value rest ih =>
    intro e he
    rw [writeRows] at he
    cases hv : w.writeErr value with
    | some msg =>
      rw [hv, bind_fatal _ _ ("Cannot write to file" ++ msg) rfl] at he
      simp only [checkError, List.mem_singleton] at he
      exact ⟨value, he⟩
    | none =>
      rw [hv, bind_ok _ _ () rfl] at he
      simp only [checkError, List.mem_append, List.mem_singleton] at he
      rcases he with he | he
      · exact ⟨value, he⟩
      · exact ih e he

/-- Every run of `writeToCSV` starts with `os.Create("result.csv")`, which it calls once;
everything after it is a row write. -/
theorem writeToCSV_trace (w : World) (listEc2 : RecordSet) :
    ∃ rows : List Event,
      (writeToCSV w listEc2).trace = Event.createFile "result.csv" :: rows
        ∧ ∀ e ∈ rows, ∃ row : List String, e = Event.writeRow row := by
  unfold writeToCSV
  cases hc : w.createErr with
  | some msg =>
    rw [bind_fatal _ _ ("Cannot create file" ++ msg) rfl]
    exact ⟨[], rfl, fun e he => by simp at he⟩
  | none =>
    rw [bind_ok _ _ () rfl, bind_ok _ _ () rfl]
    refine ⟨Event.writeRow headers :: (writeRows w (w.rangeRecords listEc2)).trace, rfl, ?_⟩
    intro e he
    rcases List.mem_cons.mp he with he | he
    · exact ⟨headers, he⟩
    · exact writeRows_events w _ e he

theorem writeToCSV_calls (w : World) (listEc2 : RecordSet) :
    describeCalls (writeToCSV w listEc2).trace = []
      ∧ (writeToCSV w listEc2).trace.count (Event.createFile "result.csv") = 1 := by
  obtain ⟨rows, htrace, hrows⟩ := writeToCSV_trace w listEc2
  rw [htrace]
  constructor
  · unfold describeCalls
    rw [List.filterMap_eq_nil_iff]
    intro e he
    rcases List.mem_cons.mp he with he | he
    · rw [he]
    · obtain ⟨row, hrow⟩ := hrows e he
      rw [hrow]
  · rw [List.count_cons_self, List.count_eq_zero_of_not_mem]
    intro hmem
    obtain ⟨row, hrow⟩ := hrows _ hmem
    cases hrow

theorem main_eq (w : World) (listAccounts : AccountMap)
    (hlist : (getOrganizationAccounts w w.config).outcome = .ok listAccounts) :
    main w
      = ⟨(getOrganizationAccounts w w.config).trace
          ++ ((accountsLoop w w.config (w.rangeAccounts listAccounts) ∅).bind
              (fun listEc2 => writeToCSV w listEc2)).trace,
        ((accountsLoop w w.config (w.rangeAccounts listAccounts) ∅).bind
            (fun listEc2 => writeToCSV w listEc2)).outcome⟩ := by
  unfold main
  simp only []
  rw [bind_ok _ _ _ hlist]

/-- C6: let `main` have enumerated the accounts and let `range` visit them in the order
`pre ++ post`, the describe calls of `pre` succeeding.  If the first account of `post`
gets an error from `DescribeInstances`, `getAccountEc2` ends in `log.Fatal` for it
without returning a record set, `main` ends with that fatal outcome, the describe calls
made are those of `pre` and of the failing account and no later one, and no file is
created and no row written.  If `post` is empty, `main` makes exactly one describe call
per visited account (one per entry of the account map when `range` visits every entry
once), then runs `writeToCSV` once, on the accumulated record set. -/
theorem c6_describe_error_aborts (w : World) (listAccounts : AccountMap)
    (pre post : List (String × String))
    (hlist : (getOrganizationAccounts w w.config).outcome = .ok listAccounts)
    (hrange : w.rangeAccounts listAccounts = pre ++ post)
    (hpre : ∀ a ∈ pre, (w.describeInstances (ec2Client w.config a.2)).2 = none) :
    (∀ (accountName accountID e : String) (rest : List (String × String)),
        post = (accountName, accountID) :: rest →
        (w.describeInstances (ec2Client w.config accountID)).2 = some e →
          (∀ result : RecordSet,
              (getAccountEc2 w w.config accountName accountID result).outcome
                = .fatal ("Could not retrieve the EC2s" ++ e))
            ∧ (main w).outcome = .fatal ("Could not retrieve the EC2s" ++ e)
            ∧ describeCalls (main w).trace
                = (pre ++ [(accountName, accountID)]).map (fun a => ec2Client w.config a.2)
            ∧ fileEvents (main w).trace = [])
      ∧ (post = [] →
          describeCalls (main w).trace
              = (w.rangeAccounts listAccounts).map (fun a => ec2Client w.config a.2)
            ∧ (w.RangeOk →
                (describeCalls (main w).trace).Perm
                  (listAccounts.entries.map (fun entry => ec2Client w.config entry.2)))
            ∧ (∃ before : List Event,
                fileEvents before = []
                  ∧ (main w).trace
                      = before ++ (writeToCSV w
                          (accumulate w w.config (w.rangeAccounts listAccounts) ∅)).trace)
            ∧ (main w).outcome
                = (writeToCSV w (accumulate w w.config (w.rangeAccounts listAccounts) ∅)).outcome
            ∧ (main w).trace.count (Event.createFile "result.csv") = 1) := by
  have hquiet := getOrganizationAccounts_quiet w w.config
  constructor
  · intro accountName accountID e rest hpost herr
    have hfatal := fun result : RecordSet =>
      getAccountEc2_fatal w w.config accountName accountID result e herr
    have hloop : accountsLoop w w.config (pre ++ post) ∅
        = ⟨(pre ++ [(accountName, accountID)]).flatMap (fun a => ec2Trace w.config a.2),
            .fatal ("Could not retrieve the EC2s" ++ e)⟩ := by
      rw [accountsLoop_append w w.config pre post ∅ hpre, hpost, accountsLoop,
        bind_fatal _ _ ("Could not retrieve the EC2s" ++ e) (by rw [hfatal]), hfatal]
      simp [List.flatMap_append, List.flatMap_cons]
    refine ⟨fun result => by rw [hfatal], ?_, ?_, ?_⟩
    · rw [main_eq w listAccounts hlist, hrange, hloop,
        bind_fatal _ _ ("Could not retrieve the EC2s" ++ e) rfl]
    · rw [main_eq w listAccounts hlist, hrange, hloop,
        bind_fatal _ _ ("Could not retrieve the EC2s" ++ e) rfl]
      show describeCalls (_ ++ _) = _
      rw [describeCalls_append, hquiet.1, describeCalls_ec2Traces]
      rfl
    · rw [main_eq w listAccounts hlist, hrange, hloop,
        bind_fatal _ _ ("Could not retrieve the EC2s" ++ e) rfl]
      show fileEvents (_ ++ _) = _
      rw [fileEvents_append, hquiet.2, fileEvents_ec2Traces]
      rfl
  · intro hpost
    subst hpost
    have hloop : accountsLoop w w.config (w.rangeAccounts listAccounts) ∅
        = ⟨(w.rangeAccounts listAccounts).flatMap (fun a => ec2Trace w.config a.2),
            .ok (accumulate w w.config (w.rangeAccounts listAccounts) ∅)⟩ := by
      rw [hrange, accountsLoop_append w w.config pre [] ∅ hpre]
      simp [accountsLoop]
    have hmain : main w
        = ⟨(getOrganizationAccounts w w.config).trace
            ++ ((w.rangeAccounts listAccounts).flatMap (fun a => ec2Trace w.config a.2)
              ++ (writeToCSV w (accumulate w w.config (w.rangeAccounts listAccounts) ∅)).trace),
          (writeToCSV w (accumulate w w.config (w.rangeAccounts listAccounts) ∅)).outcome⟩ := by
      rw [main_eq w listAccounts hlist, hloop, bind_ok _ _ _ rfl]
    have hcsv := writeToCSV_calls w (accumulate w w.config (w.rangeAccounts listAccounts) ∅)
    have hcalls : describeCalls (main w).trace
        = (w.rangeAccounts listAccounts).map (fun a => ec2Client w.config a.2) := by
      rw [hmain]
      show describeCalls (_ ++ (_ ++ _)) = _
      rw [describeCalls_append, describeCalls_append, hquiet.1, describeCalls_ec2Traces, hcsv.1]
      simp
    have hbefore : fileEvents ((getOrganizationAccounts w w.config).trace
        ++ (w.rangeAccounts listAccounts).flatMap (fun a => ec2Trace w.config a.2)) = [] := by
      rw [fileEvents_append, hquiet.2, fileEvents_ec2Traces]
      rfl
    refine ⟨hcalls, ?_, ⟨_, hbefore, ?_⟩, ?_, ?_⟩
    · intro hok
      rw [hcalls]
      have hperm := (hok.1 listAccounts).map (fun a : String × String => ec2Client w.config a.2)
      simpa [List.map_map, Function.comp] using hperm
    · rw [hmain, List.append_assoc]
    · rw [hmain]
    · rw [hmain]
      show List.count _ (_ ++ (_ ++ _)) = 1
      rw [← List.append_assoc, List.count_append, hcsv.2, List.count_eq_zero_of_not_mem]
      intro hmem
      have hnil := List.filter_eq_nil_iff.mp hbefore _ hmem
      simp at hnil

/-- C6 at two worlds with the accounts `dev` and `prod`, visited in this order.  In
`failWorld` the describe call of `dev` succeeds and that of `prod` fails: `main` aborts
after two describe calls and touches no file.  In `exWorld` no call fails: `main` makes
one describe call per account and runs `writeToCSV` once. -/
theorem c6_describe_error_aborts_witness :
    ((getOrganizationAccounts failWorld failWorld.config).outcome
          = .ok (addAccounts ∅ [⟨"prod", "111111111111"⟩, ⟨"dev", "222222222222"⟩])
        ∧ failWorld.rangeAccounts (addAccounts ∅ [⟨"prod", "111111111111"⟩, ⟨"dev", "222222222222"⟩])
            = [("dev", "222222222222")] ++ [("prod", "111111111111")]
        ∧ (∀ a ∈ [("dev", "222222222222")],
            (failWorld.describeInstances (ec2Client failWorld.config a.2)).2 = none)
        ∧ (failWorld.describeInstances (ec2Client failWorld.config "111111111111")).2
            = some "AccessDenied"
        ∧ (∀ result : RecordSet,
            (getAccountEc2 failWorld failWorld.config "prod" "111111111111" result).outcome
              = .fatal ("Could not retrieve the EC2s" ++ "AccessDenied"))
        ∧ (main failWorld).outcome = .fatal ("Could not retrieve the EC2s" ++ "AccessDenied")
        ∧ describeCalls (main failWorld).trace
            = ([("dev", "222222222222")] ++ [("prod", "111111111111")]).map
                (fun a => ec2Client failWorld.config a.2)
        ∧ fileEvents (main failWorld).trace = [])
      ∧ ((getOrganizationAccounts exWorld exWorld.config).outcome
          = .ok (addAccounts ∅ [⟨"prod", "111111111111"⟩, ⟨"dev", "222222222222"⟩])
        ∧ exWorld.rangeAccounts (addAccounts ∅ [⟨"prod", "111111111111"⟩, ⟨"dev", "222222222222"⟩])
            = [("dev", "222222222222"), ("prod", "111111111111")] ++ []
        ∧ (∀ a ∈ [("dev", "222222222222"), ("prod", "111111111111")],
            (exWorld.describeInstances (ec2Client exWorld.config a.2)).2 = none)
        ∧ exWorld.RangeOk
        ∧ describeCalls (main exWorld).trace
            = (exWorld.rangeAccounts
                (addAccounts ∅ [⟨"prod", "111111111111"⟩, ⟨"dev", "222222222222"⟩])).map
                  (fun a => ec2Client exWorld.config a.2)
        ∧ (describeCalls (main exWorld).trace).Perm
            ((addAccounts ∅ [⟨"prod", "111111111111"⟩, ⟨"dev", "222222222222"⟩]).entries.map
              (fun entry => ec2Client exWorld.config entry.2))
        ∧ (main exWorld).outcome
            = (writeToCSV exWorld (accumulate exWorld exWorld.config
                (exWorld.rangeAccounts
                  (addAccounts ∅ [⟨"prod", "111111111111"⟩, ⟨"dev", "222222222222"⟩])) ∅)).outcome
        ∧ (main exWorld).trace.count (Event.createFile "result.csv") = 1) :=
  have hfail := (c6_describe_error_aborts failWorld
    (addAccounts ∅ [⟨"prod", "111111111111"⟩, ⟨"dev", "222222222222"⟩])
    [("dev", "222222222222")] [("prod", "111111111111")] rfl rfl (by decide)).1
      "prod" "111111111111" "AccessDenied" [] rfl rfl
  have hrangeOk : exWorld.RangeOk := ⟨fun _ => List.Perm.refl _, fun _ => List.Perm.refl _⟩
  have hok := (c6_describe_error_aborts exWorld
    (addAccounts ∅ [⟨"prod", "111111111111"⟩, ⟨"dev", "222222222222"⟩])
    [("dev", "222222222222"), ("prod", "111111111111")] [] rfl rfl (by decide)).2 rfl
  ⟨⟨rfl, rfl, by decide, rfl, hfail.1, hfail.2.1, hfail.2.2.1, hfail.2.2.2⟩,
    ⟨rfl, rfl, by decide, hrangeOk, hok.1, hok.2.1 hrangeOk, hok.2.2.2.1, hok.2.2.2.2⟩⟩

end Ec2List
